import Mathlib

/-!
Shallow embedding of the anomaly-detection core of the SQLRagWithAnomally
repository (backend/services/anomaly_detection.py, backend/services/cache_service.py),
over exact rational arithmetic.

Modelling conventions, used consistently below:
* pandas float cells that can hold NaN are modelled as Option ℚ (none = NaN) or
  by the explicit two-constructor type PCell when the cell is part of an emitted
  record; all comparisons against NaN are false, as in IEEE/pandas semantics.
* pandas Series.std uses ddof = 1 (sample standard deviation); it is NaN for
  fewer than two values.  Since a square root is irrational in general, the
  embedding carries the variance (the square of the standard deviation) and
  every comparison involving a standard deviation is stated in squared form;
  the bridge theorems restate those comparisons over ℝ with Real.sqrt.
* database I/O is external: each detector is modelled as a function of the
  tabular result the provider returns for its query.  SQL expressions that the
  detector itself embeds in its query text (CASE WHEN, NULLIF, ORDER BY keys)
  are modelled explicitly, with SQL division by zero as an error value.
-/

namespace SQLRag

/-- A pandas float cell as it appears in an emitted record: either a numeric
value or NaN. -/
inductive PCell where
  | num (q : ℚ)
  | nan
deriving DecidableEq, Repr

/-- View an optional rational (none = undefined/NaN) as a pandas cell. -/
def toPCell : Option ℚ → PCell
  | some q => PCell.num q
  | none => PCell.nan

/-- Sum of a list of rationals. -/
def sumQ (l : List ℚ) : ℚ := l.foldr (· + ·) 0

/-- pandas Series.mean over a non-empty column (0 on the empty list, which the
detectors never reach because they return early on an empty frame). -/
def meanQ (l : List ℚ) : ℚ := sumQ l / (l.length : ℚ)

/-- Square of pandas Series.std (ddof = 1): the sample variance.  none models
the NaN that pandas produces for fewer than two values. -/
def sampleVarQ (l : List ℚ) : Option ℚ :=
  if 2 ≤ l.length then
    some (sumQ (l.map (fun x => (x - meanQ l) ^ 2)) / ((l.length : ℚ) - 1))
  else none

/-- pandas Series.min over a non-empty column. -/
def minQ : List ℚ → ℚ
  | [] => 0
  | x :: xs => xs.foldl min x

/-- pandas Series.max over a non-empty column. -/
def maxQ : List ℚ → ℚ
  | [] => 0
  | x :: xs => xs.foldl max x

/-- The sorted copy of a column that quantile computation works on. -/
def sortQ (l : List ℚ) : List ℚ := l.insertionSort (· ≤ ·)

/-- Linear interpolation of a sorted column at a fractional position, as numpy
and pandas do for quantiles: position p*(n-1), value
s[i] + frac*(s[i+1] - s[i]) with i = floor of the position.  The default of the
(i+1)-th lookup is the i-th value, which coincides with the source behaviour
because the fractional part is zero at the top position. -/
def interpAt (s : List ℚ) (pos : ℚ) : ℚ :=
  let i : ℕ := (⌊pos⌋).toNat
  s.getD i 0 + (pos - (i : ℚ)) * (s.getD (i + 1) (s.getD i 0) - s.getD i 0)

/-- pandas Series.quantile with the default linear interpolation. -/
def quantileQ (l : List ℚ) (p : ℚ) : ℚ :=
  interpAt (sortQ l) (p * ((l.length : ℚ) - 1))

/-- pandas Series.median = quantile 0.5. -/
def medianQ (l : List ℚ) : ℚ := quantileQ l (1 / 2)

/-- One row of the grouped aggregate table that the provider returns for
detect_statistical_anomalies: display name, SUM(metric) per group, distinct
order count. -/
structure SRow where
  dimensionName : String
  metricValue : ℚ
  orderCount : ℕ
deriving DecidableEq, Repr

/-- Keys of the dimension_map of detect_statistical_anomalies
(anomaly_detection.py lines 154-159). -/
def dimensionMapKeys : List String :=
  ["ProductKey", "CustomerKey", "SalesTerritoryKey", "PromotionKey"]

/-- Lines 161-162: an unknown dimension is silently replaced by ProductKey. -/
def resolveStatDimension (d : String) : String :=
  if d ∈ dimensionMapKeys then d else "ProductKey"

/-- self.zscore_threshold (constructor, line 16). -/
def zscoreThreshold : ℚ := 3

/-- self.iqr_multiplier (constructor, line 17). -/
def iqrMultiplier : ℚ := 3 / 2

/-- The IsAnomaly column of the zscore branch: abs((v - mean)/std) > t, stated
in squared form ((v - mean)^2 > t^2 * var, equivalent over ℝ for the
nonnegative variance); none (std = NaN, one data point) flags nothing, and for
variance zero every row equals the mean so nothing is flagged, both exactly as
the NaN/0-division comparisons behave in pandas. -/
def zscoreFlag (varOpt : Option ℚ) (mean v t : ℚ) : Bool :=
  match varOpt with
  | some var => decide ((v - mean) ^ 2 > t ^ 2 * var)
  | none => false

/-- Severity of a zscore finding (line 204): high when abs zscore > 4, in
squared form. -/
def zscoreSeverity (varOpt : Option ℚ) (mean v : ℚ) : String :=
  match varOpt with
  | some var => if (v - mean) ^ 2 > 4 ^ 2 * var then "high" else "medium"
  | none => "medium"

/-- An anomaly record emitted by detect_statistical_anomalies; the three
branches emit three record shapes.  The zscore record's raw zscore float is
determined by the deviation field and the column variance and is not carried
separately (it is irrational in general). -/
inductive StatAnomaly where
  | zscoreRec (dimension dimensionValue : String)
      (metricValue expectedValue deviation : ℚ) (severity : String) (orderCount : ℕ)
  | iqrRec (dimension dimensionValue : String) (metricValue : ℚ)
      (expectedLower expectedUpper deviation : ℚ) (severity : String) (orderCount : ℕ)
  | isoRec (dimension dimensionValue : String)
      (metricValue expectedValue deviation : ℚ) (severity : String) (orderCount : ℕ)
deriving DecidableEq, Repr

/-- Severity field of a statistical anomaly record. -/
def StatAnomaly.severity : StatAnomaly → String
  | StatAnomaly.zscoreRec _ _ _ _ _ s _ => s
  | StatAnomaly.iqrRec _ _ _ _ _ _ s _ => s
  | StatAnomaly.isoRec _ _ _ _ _ s _ => s

/-- The zscore record built for a flagged row (lines 196-206). -/
def mkZscoreRec (dim : String) (mean : ℚ) (varOpt : Option ℚ) (r : SRow) : StatAnomaly :=
  StatAnomaly.zscoreRec dim r.dimensionName r.metricValue mean (r.metricValue - mean)
    (zscoreSeverity varOpt mean r.metricValue) r.orderCount

/-- The zscore branch of detect_statistical_anomalies (lines 189-206). -/
def zscoreBranch (dim : String) (rows : List SRow) : List StatAnomaly :=
  let vals := rows.map SRow.metricValue
  let mean := meanQ vals
  let varOpt := sampleVarQ vals
  (rows.filter (fun r => zscoreFlag varOpt mean r.metricValue zscoreThreshold)).map
    (mkZscoreRec dim mean varOpt)

/-- lower_bound = Q1 - multiplier * IQR (line 213). -/
def iqrLower (vals : List ℚ) : ℚ :=
  quantileQ vals (1 / 4) - iqrMultiplier * (quantileQ vals (3 / 4) - quantileQ vals (1 / 4))

/-- upper_bound = Q3 + multiplier * IQR (line 214). -/
def iqrUpper (vals : List ℚ) : ℚ :=
  quantileQ vals (3 / 4) + iqrMultiplier * (quantileQ vals (3 / 4) - quantileQ vals (1 / 4))

/-- The IsAnomaly column of the IQR branch (lines 216-219): strictly outside
the interval of lower and upper bound. -/
def iqrOutlier (lower upper v : ℚ) : Bool :=
  decide (v < lower ∨ v > upper)

/-- The IQR record built for a flagged row (lines 221-230). -/
def mkIqrRec (dim : String) (q1 q3 iqr : ℚ) (r : SRow) : StatAnomaly :=
  let lower := q1 - iqrMultiplier * iqr
  let upper := q3 + iqrMultiplier * iqr
  StatAnomaly.iqrRec dim r.dimensionName r.metricValue lower upper
    (if r.metricValue > upper then r.metricValue - q3 else q1 - r.metricValue)
    (if r.metricValue < lower - iqr ∨ r.metricValue > upper + iqr then "high" else "medium")
    r.orderCount

/-- The IQR branch of detect_statistical_anomalies (lines 208-230). -/
def iqrBranch (dim : String) (rows : List SRow) : List StatAnomaly :=
  let vals := rows.map SRow.metricValue
  let q1 := quantileQ vals (1 / 4)
  let q3 := quantileQ vals (3 / 4)
  (rows.filter (fun r => iqrOutlier (iqrLower vals) (iqrUpper vals) r.metricValue)).map
    (mkIqrRec dim q1 q3 (q3 - q1))

/-- The fit_predict call of the isolation-forest ensemble, abstracted: the
arguments are the contamination ratio, the random seed and the single metric
column; the result is the per-row label list (-1 = outlier).  Being a Lean
function, a Predictor is deterministic in its arguments, which is exactly what
a fixed random_state buys the source. -/
def Predictor : Type := ℚ → ℕ → List ℚ → List Int

/-- contamination=0.1 at line 235. -/
def isoContamination : ℚ := 1 / 10

/-- random_state=42 at line 235. -/
def isoRandomState : ℕ := 42

/-- The isolation-forest branch of detect_statistical_anomalies
(lines 232-250): below 10 rows nothing runs and no finding is produced. -/
def isoBranch (p : Predictor) (dim : String) (rows : List SRow) : List StatAnomaly :=
  if 10 ≤ rows.length then
    let vals := rows.map SRow.metricValue
    let labels := p isoContamination isoRandomState vals
    let med := medianQ vals
    ((rows.zip labels).filter (fun rl => decide (rl.2 = -1))).map
      (fun rl => StatAnomaly.isoRec dim rl.1.dimensionName rl.1.metricValue med
        (rl.1.metricValue - med) "medium" rl.1.orderCount)
  else []

/-- The statistics block of detect_statistical_anomalies (lines 252-260).
stdDevSq carries the square of the emitted std_dev float (none = NaN); the
source value is its nonnegative square root. -/
structure StatSummary where
  totalItems : ℕ
  anomalyCount : ℕ
  meanValue : ℚ
  medianValue : ℚ
  stdDevSq : Option ℚ
  minValue : ℚ
  maxValue : ℚ
deriving DecidableEq, Repr

/-- Builds the statistics block from the (non-empty) frame. -/
def statSummaryOf (rows : List SRow) (anomalyCount : ℕ) : StatSummary :=
  let vals := rows.map SRow.metricValue
  ⟨rows.length, anomalyCount, meanQ vals, medianQ vals, sampleVarQ vals, minQ vals, maxQ vals⟩

/-- Result of detect_statistical_anomalies.  On an empty frame the source
returns a dict without statistics content and without a dimension key
(line 185), modelled by none in those fields. -/
structure StatResult where
  anomalies : List StatAnomaly
  statistics : Option StatSummary
  method : String
  dimension : Option String
deriving DecidableEq, Repr

/-- detect_statistical_anomalies (lines 134-267) as a function of the grouped
aggregate table the database returns.  A method string that matches no branch
performs no detection and is echoed back unchanged. -/
def detect_statistical_anomalies (p : Predictor) (dimension method : String)
    (rows : List SRow) : StatResult :=
  let dim := resolveStatDimension dimension
  if rows.isEmpty then ⟨[], none, method, none⟩
  else
    let anomalies :=
      if method = "zscore" then zscoreBranch dim rows
      else if method = "iqr" then iqrBranch dim rows
      else if method = "isolation_forest" then isoBranch p dim rows
      else []
    ⟨anomalies, some (statSummaryOf rows anomalies.length), method, some dim⟩

/-- One row of the time-bucketed aggregate table the provider returns for
detect_time_series_anomalies, ordered by time bucket. -/
structure TSRow where
  timePeriod : String
  metricValue : ℚ
  orderCount : ℕ
deriving DecidableEq, Repr

/-- window = min(7, len(df) // 3) at line 81. -/
def tsWindow (vals : List ℚ) : ℕ := min 7 (vals.length / 3)

/-- The centered rolling window of pandas rolling(window=w, center=True) at
index i.  pandas centers an integer window with offset (w - 1) / 2 (integer
division): the window for label i covers indices
i + (w-1)/2 + 1 - w .. i + (w-1)/2, i.e. the symmetric i ± (w-1)/2 for odd w
and the left-heavy i - w/2 .. i + w/2 - 1 for even w; none (NaN output, with
the default min_periods = w) where the window does not fit entirely inside
the series. -/
def rollingWindow (vals : List ℚ) (w i : ℕ) : Option (List ℚ) :=
  if w ≤ i + (w - 1) / 2 + 1 ∧ i + (w - 1) / 2 < vals.length then
    some ((List.range w).map (fun j => vals.getD (i + (w - 1) / 2 + 1 - w + j) 0))
  else none

/-- Centered rolling mean (line 83); none models the NaN edge cells. -/
def rollingMean (vals : List ℚ) (w i : ℕ) : Option ℚ :=
  (rollingWindow vals w i).map meanQ

/-- Square of the centered rolling std (line 84), sample variance over the
window; none models the NaN edge cells. -/
def rollingVarSq (vals : List ℚ) (w i : ℕ) : Option ℚ :=
  (rollingWindow vals w i).bind sampleVarQ

/-- The center and variance from which the bounds of index i derive: rolling
mean/variance when the window size is at least 2 (lines 82-86), otherwise the
global mean and global sample variance (lines 87-90); none when the bound
cells are NaN, in which case, as in pandas, no comparison can flag the row. -/
def tsCenterVar (vals : List ℚ) (i : ℕ) : Option (ℚ × ℚ) :=
  let w := tsWindow vals
  if 2 ≤ w then
    match rollingMean vals w i, rollingVarSq vals w i with
    | some ma, some mv => some (ma, mv)
    | _, _ => none
  else
    match sampleVarQ vals with
    | some gv => some (meanQ vals, gv)
    | none => none

/-- v > center + 2*std in squared form (std = sqrt var, var nonnegative). -/
def gtUpperBound (v center var : ℚ) : Bool :=
  decide (v - center > 0 ∧ (v - center) ^ 2 > 4 * var)

/-- v < center - 2*std in squared form. -/
def ltLowerBound (v center var : ℚ) : Bool :=
  decide (center - v > 0 ∧ (center - v) ^ 2 > 4 * var)

/-- The IsAnomaly column of the time-series detector (lines 93-96). -/
def tsFlag (vals : List ℚ) (i : ℕ) : Bool :=
  match tsCenterVar vals i with
  | some (c, var) => gtUpperBound (vals.getD i 0) c var || ltLowerBound (vals.getD i 0) c var
  | none => false

/-- The MA column (line 83 in the rolling branch, line 88 in the fallback
branch, where it is the global mean); none models a NaN cell. -/
def tsMA (vals : List ℚ) (i : ℕ) : Option ℚ :=
  let w := tsWindow vals
  if 2 ≤ w then rollingMean vals w i else some (meanQ vals)

/-- Anomaly type at line 101: spike when above the upper bound, else drop. -/
def tsType (vals : List ℚ) (i : ℕ) : String :=
  match tsCenterVar vals i with
  | some (c, var) => if gtUpperBound (vals.getD i 0) c var then "spike" else "drop"
  | none => "drop"

/-- Severity at line 102: high when the global zscore exceeds 3 in absolute
value, in squared form; NaN global std gives medium, as abs(NaN) > 3 is false. -/
def tsSeverity (vals : List ℚ) (v : ℚ) : String :=
  match sampleVarQ vals with
  | some gv => if (v - meanQ vals) ^ 2 > 3 ^ 2 * gv then "high" else "medium"
  | none => "medium"

/-- An anomaly record of the time-series detector (lines 104-114).  The raw
zscore float is determined by metricValue, the column mean and variance and is
not carried separately. -/
structure TSAnomaly where
  timePeriod : String
  metricValue : ℚ
  expectedValue : ℚ
  deviation : ℚ
  deviationPct : ℚ
  type : String
  severity : String
  orderCount : ℕ
deriving DecidableEq, Repr

/-- Builds the record for a flagged index; the MA cell is defined whenever the
row is flagged, so the 0 default of getD is never the emitted value. -/
def mkTSAnomaly (rows : List TSRow) (vals : List ℚ) (i : ℕ) : TSAnomaly :=
  let r := rows.getD i ⟨"", 0, 0⟩
  let ma := (tsMA vals i).getD 0
  ⟨r.timePeriod, r.metricValue, ma, r.metricValue - ma,
    if ma ≠ 0 then (r.metricValue - ma) / ma * 100 else 0,
    tsType vals i, tsSeverity vals r.metricValue, r.orderCount⟩

/-- One record of the time_series_data dump (df.to_dict at line 131).  The
frame's remaining float columns (StdDev, ZScore, MA_Std and the bounds) are
real-valued functions of these fields and the series; the MA cell is carried
explicitly because it is NaN at window edges. -/
structure TSRecord where
  timePeriod : String
  metricValue : ℚ
  ma : PCell
  isAnomaly : Bool
deriving DecidableEq, Repr

/-- The statistics block of detect_time_series_anomalies (lines 116-125). -/
structure TSSummary where
  totalPeriods : ℕ
  anomalyCount : ℕ
  meanValue : ℚ
  stdDevSq : Option ℚ
  minValue : ℚ
  maxValue : ℚ
  granularity : String
  lookbackDays : ℕ
deriving DecidableEq, Repr

/-- Result of detect_time_series_anomalies; on an empty frame the source
returns a dict without statistics content and without a time_series_data key
(line 73), modelled by none in those fields. -/
structure TSResult where
  anomalies : List TSAnomaly
  statistics : Option TSSummary
  method : String
  timeSeriesData : Option (List TSRecord)
deriving DecidableEq, Repr

/-- detect_time_series_anomalies (lines 24-132) as a function of the
time-bucketed table the database returns for the chosen granularity and
lookback. -/
def detect_time_series_anomalies (granularity : String) (lookbackDays : ℕ)
    (rows : List TSRow) : TSResult :=
  if rows.isEmpty then ⟨[], none, "time_series", none⟩
  else
    let vals := rows.map TSRow.metricValue
    let idx := List.range rows.length
    let anomalies := (idx.filter (tsFlag vals)).map (mkTSAnomaly rows vals)
    let records := idx.map (fun i =>
      TSRecord.mk (rows.getD i ⟨"", 0, 0⟩).timePeriod (vals.getD i 0)
        (toPCell (tsMA vals i)) (tsFlag vals i))
    ⟨anomalies,
      some ⟨rows.length, anomalies.length, meanQ vals, sampleVarQ vals, minQ vals,
        maxQ vals, granularity, lookbackDays⟩,
      "time_series", some records⟩

/-- Keys of the dimension_config of detect_day_on_day_anomalies
(anomaly_detection.py lines 448-473); the third key is TerritoryKey, not
SalesTerritoryKey. -/
def dodDimensionKeys : List String :=
  ["ProductKey", "CustomerKey", "TerritoryKey", "PromotionKey"]

/-- Lines 475-476: an unknown dimension is silently replaced by ProductKey. -/
def resolveDoDDimension (d : String) : String :=
  if d ∈ dodDimensionKeys then d else "ProductKey"

/-- SQL NULLIF(a, b): NULL when a = b, else a. -/
def sqlNullif (a b : ℚ) : Option ℚ := if a = b then none else some a

/-- SQL division x / d where the divisor may be NULL: NULL divisor gives NULL,
a zero divisor raises the engine's divide-by-zero error and aborts the query. -/
def sqlDiv (x : ℚ) (d : Option ℚ) : Except String (Option ℚ) :=
  match d with
  | none => Except.ok none
  | some d => if d = 0 then Except.error "Divide by zero error encountered." else Except.ok (some (x / d))

/-- The PercentChange column of the day-on-day query (lines 523-527):
CASE WHEN PreviousValue > 0 THEN (cur - prev)/prev*100 ELSE NULL END. -/
def dodPercentChange (prev cur : ℚ) : Option ℚ :=
  if prev > 0 then some ((cur - prev) / prev * 100) else none

/-- The ORDER BY sort key of the day-on-day query (line 532):
ABS((CurrentValue - PreviousValue) / NULLIF(PreviousValue, 1)). -/
def dodOrderKey (cur prev : ℚ) : Except String (Option ℚ) :=
  match sqlDiv (cur - prev) (sqlNullif prev 1) with
  | Except.ok q => Except.ok (q.map (fun x => |x|))
  | Except.error e => Except.error e

/-- A (CurrentValue, PreviousValue) pair of the day-on-day frame, one per row
surviving the WHERE PreviousValue IS NOT NULL filter. -/
structure DoDPair where
  cur : ℚ
  prev : ℚ
deriving DecidableEq, Repr

/-- Evaluation of the day-on-day result set: each row carries its
PercentChange cell, and the whole query errors as soon as the sort key of any
returned row raises, as the engine evaluates the ORDER BY key for every row. -/
def dodQueryRows (pairs : List DoDPair) : Except String (List (DoDPair × Option ℚ)) :=
  match pairs with
  | [] => Except.ok []
  | pr :: rest =>
    match dodOrderKey pr.cur pr.prev, dodQueryRows rest with
    | Except.error e, _ => Except.error e
    | _, Except.error e => Except.error e
    | Except.ok _, Except.ok rs => Except.ok ((pr, dodPercentChange pr.prev pr.cur) :: rs)

/-- State of the in-process variant of CacheService (cache_service.py,
use_redis = False): the backing dict as an association list from key to
(value, absolute expiry), none expiry = never expires, plus the hit/miss/set
counters.  Disk persistence is I/O outside the store's semantics and is not
modelled. -/
structure CacheState (V : Type) where
  memoryCache : List (String × V × Option ℚ)
  hits : ℕ
  misses : ℕ
  setCount : ℕ
deriving Repr

/-- First binding of a key in the backing dict. -/
def mcLookup {V : Type} : List (String × V × Option ℚ) → String → Option (V × Option ℚ)
  | [], _ => none
  | (k', vv) :: rest, k => if k' = k then some vv else mcLookup rest k

/-- Removal of a key binding (the del statements at lines 96 and 204). -/
def mcErase {V : Type} (m : List (String × V × Option ℚ)) (k : String) :
    List (String × V × Option ℚ) :=
  m.filter (fun e => decide (e.1 ≠ k))

/-- Dict insertion: the new binding replaces any existing one. -/
def mcInsert {V : Type} (m : List (String × V × Option ℚ)) (k : String)
    (vv : V × Option ℚ) : List (String × V × Option ℚ) :=
  (k, vv) :: mcErase m k

/-- Whether an entry with the given expiry survives the cleanup at time now:
entries without expiry always do, the rest while the expiry is strictly in the
future. -/
def aliveAt (now : ℚ) : Option ℚ → Bool
  | some t => decide (now < t)
  | none => true

/-- _cleanup_memory_cache (lines 196-204): drops every entry whose expiry is
at or before now; entries without expiry are kept. -/
def mcCleanup {V : Type} (now : ℚ) (m : List (String × V × Option ℚ)) :
    List (String × V × Option ℚ) :=
  m.filter (fun e => aliveAt now e.2.2)

/-- CacheService.get on the memory backend (lines 87-99): a present entry is a
hit while unexpired (no expiry, or now strictly before it); an expired entry
is deleted and the call falls through to the miss path; an absent key is a
miss. -/
def cacheGet {V : Type} (s : CacheState V) (now : ℚ) (key : String) :
    Option V × CacheState V :=
  match mcLookup s.memoryCache key with
  | some (v, none) => (some v, ⟨s.memoryCache, s.hits + 1, s.misses, s.setCount⟩)
  | some (v, some t) =>
    if now < t then (some v, ⟨s.memoryCache, s.hits + 1, s.misses, s.setCount⟩)
    else (none, ⟨mcErase s.memoryCache key, s.hits, s.misses + 1, s.setCount⟩)
  | none => (none, ⟨s.memoryCache, s.hits, s.misses + 1, s.setCount⟩)

/-- The absolute expiry computed at line 131: now + ttl, where a ttl of none
or 0 is falsy in the source's conditional and means never expires. -/
def setExpiry (now : ℚ) : Option ℚ → Option ℚ
  | some t => if t ≠ 0 then some (now + t) else none
  | none => none

/-- The backing-dict update of CacheService.set (lines 130-136): insert,
followed by the opportunistic cleanup when the store exceeds 1000 entries. -/
def cacheSetStore {V : Type} (m : List (String × V × Option ℚ)) (now : ℚ) (key : String)
    (v : V) (ttl : Option ℚ) : List (String × V × Option ℚ) :=
  let m' := mcInsert m key (v, setExpiry now ttl)
  if 1000 < m'.length then mcCleanup now m' else m'

/-- CacheService.set on the memory backend (lines 118-142): bumps the set
counter and updates the backing dict. -/
def cacheSet {V : Type} (s : CacheState V) (now : ℚ) (key : String) (v : V)
    (ttl : Option ℚ) : CacheState V :=
  ⟨cacheSetStore s.memoryCache now key v ttl, s.hits, s.misses, s.setCount + 1⟩

/-- The summary block of detect_all_anomalies (lines 865-875): either the
success shape with the aggregate totals or the error shape carrying the raised
message. -/
structure AllSummary where
  status : String
  totalAnomalies : Option ℕ
  detectionMethods : Option ℕ
  errorMsg : Option String
deriving DecidableEq, Repr

/-- Result of detect_all_anomalies: the anomaly_types dict in insertion order
and the summary. -/
structure AllResult (R : Type) where
  anomalyTypes : List (String × R)
  summary : AllSummary
deriving Repr

/-- Sequential execution of the fixed battery inside the single try block of
detect_all_anomalies (lines 825-858): each completed sub-result is inserted
into the dict; the first raising sub-detector aborts the rest, leaving the
entries inserted before it. -/
def runBattery {R : Type} : List (String × Except String R) →
    List (String × R) × Option String
  | [] => ([], none)
  | (nm, Except.ok r) :: rest =>
    let (rs, err) := runBattery rest
    ((nm, r) :: rs, err)
  | (_, Except.error e) :: _ => ([], some e)

/-- The names of the fixed battery, in execution order (lines 827-857). -/
def batteryNames : List String :=
  ["time_series_daily", "time_series_monthly", "statistical_products",
    "statistical_customers", "comparative_yoy", "comparative_mom"]

/-- detect_all_anomalies (lines 813-877), parametric in the outcome of each
sub-detector (count extracts a sub-result's anomaly count, as
len(result.get("anomalies", [])) does at lines 860-863): one try/except wraps
the whole battery, so an exception ends the run with the error summary, and
otherwise the success summary aggregates over the completed dict. -/
def detect_all_anomalies {R : Type} (count : R → ℕ)
    (battery : List (String × Except String R)) : AllResult R :=
  let (collected, err) := runBattery battery
  match err with
  | some e => ⟨collected, ⟨"error", none, none, some e⟩⟩
  | none =>
    ⟨collected,
      ⟨"success", some (collected.map (fun x => count x.2)).sum, some collected.length, none⟩⟩

/-! ## Theorems -/

theorem runBattery_prefix_error {R : Type} (pres : List (String × R)) (nm e : String)
    (post : List (String × Except String R)) :
    runBattery (pres.map (fun x => (x.1, Except.ok x.2)) ++ (nm, Except.error e) :: post) =
      (pres, some e) := by
  induction pres with
  | nil => rfl
  | cons a rest ih => simp [runBattery, ih]

/-- C1 counterexample: in the run where the first sub-detector
(time_series_daily) raises and every other sub-detector would succeed, the
returned dictionary holds no sub-result at all — the other detectors' results
are absent — and the status field is "error", not a partial-success marker. -/
theorem detect_all_first_failure_blanks_rest :
    (detect_all_anomalies (fun n => n)
        [("time_series_daily", (Except.error "database connection failed" : Except String ℕ)),
          ("time_series_monthly", Except.ok 2), ("statistical_products", Except.ok 1),
          ("statistical_customers", Except.ok 0), ("comparative_yoy", Except.ok 3),
          ("comparative_mom", Except.ok 1)]).anomalyTypes = [] ∧
    (detect_all_anomalies (fun n => n)
        [("time_series_daily", (Except.error "database connection failed" : Except String ℕ)),
          ("time_series_monthly", Except.ok 2), ("statistical_products", Except.ok 1),
          ("statistical_customers", Except.ok 0), ("comparative_yoy", Except.ok 3),
          ("comparative_mom", Except.ok 1)]).summary =
      ⟨"error", none, none, some "database connection failed"⟩ :=
  ⟨rfl, rfl⟩

/-- C1 (amended): detect_all_anomalies wraps the whole battery in a single
try/except, so the first raising sub-detector aborts the remaining ones: the
returned dictionary contains exactly the sub-results completed before the
failure, and the summary is the error shape carrying that exception's message
(no per-sub-result error capture, no partial-success status). -/
theorem detect_all_single_try_semantics {R : Type} (count : R → ℕ)
    (pres : List (String × R)) (nm e : String) (post : List (String × Except String R)) :
    detect_all_anomalies count (pres.map (fun x => (x.1, Except.ok x.2)) ++
        (nm, Except.error e) :: post) =
      ⟨pres, ⟨"error", none, none, some e⟩⟩ := by
  unfold detect_all_anomalies
  rw [runBattery_prefix_error]

/-- C2 counterexample: called with the unknown dimension "LegalEntity", the
statistical detector raises no error and returns the very result it returns
for the default dimension ProductKey; the only trace of the substitution is
the substituted dimension name echoed in the response.  The day-on-day
dimension resolution substitutes the same default silently. -/
theorem unknown_dimension_silently_defaulted :
    detect_statistical_anomalies (fun _ _ _ => []) "LegalEntity" "zscore"
        [⟨"P1", 10, 6⟩, ⟨"P2", 12, 7⟩] =
      detect_statistical_anomalies (fun _ _ _ => []) "ProductKey" "zscore"
        [⟨"P1", 10, 6⟩, ⟨"P2", 12, 7⟩] ∧
    (detect_statistical_anomalies (fun _ _ _ => []) "LegalEntity" "zscore"
        [⟨"P1", 10, 6⟩, ⟨"P2", 12, 7⟩]).dimension = some "ProductKey" ∧
    resolveDoDDimension "LegalEntity" = "ProductKey" :=
  ⟨rfl, rfl, rfl⟩

/-- C2 (amended): an unknown dimension argument is not rejected: both
detect_statistical_anomalies (lines 161-162) and the day-on-day dimension
resolution (lines 475-476) silently fall back to the default dimension
ProductKey, and the statistical detector's response is indistinguishable from
a ProductKey request apart from the substituted name echoed back. -/
theorem unknown_dimension_fallback (p : Predictor) (d m : String) (rows : List SRow)
    (hd : d ∉ dimensionMapKeys) (d' : String) (hd' : d' ∉ dodDimensionKeys) :
    detect_statistical_anomalies p d m rows =
      detect_statistical_anomalies p "ProductKey" m rows ∧
    resolveStatDimension d = "ProductKey" ∧
    resolveDoDDimension d' = "ProductKey" := by
  have h1 : resolveStatDimension d = "ProductKey" := by
    simp [resolveStatDimension, hd]
  have h2 : resolveStatDimension "ProductKey" = "ProductKey" := by decide
  refine ⟨?_, h1, by simp [resolveDoDDimension, hd']⟩
  unfold detect_statistical_anomalies
  rw [h1, h2]

theorem unknown_dimension_fallback_witness :
    ("LegalEntity" ∉ dimensionMapKeys) ∧ ("SalesTerritoryKey" ∉ dodDimensionKeys) ∧
    (detect_statistical_anomalies (fun _ _ _ => []) "LegalEntity" "iqr" [⟨"P1", 10, 6⟩] =
        detect_statistical_anomalies (fun _ _ _ => []) "ProductKey" "iqr" [⟨"P1", 10, 6⟩] ∧
      resolveStatDimension "LegalEntity" = "ProductKey" ∧
      resolveDoDDimension "SalesTerritoryKey" = "ProductKey") :=
  ⟨by decide, by decide,
    unknown_dimension_fallback (fun _ _ _ => []) "LegalEntity" "iqr" [⟨"P1", 10, 6⟩]
      (by decide) "SalesTerritoryKey" (by decide)⟩

/-- C6: at a day-on-day row whose previous value is 0 and current value 100,
the query's guarded CASE WHEN produces a NULL percent change, but the ORDER BY
sort key ABS((cur - prev) / NULLIF(prev, 1)) divides by NULLIF(0, 1) = 0, so
evaluating the result set raises the engine's divide-by-zero error and the
detector aborts — the guard value 1 instead of 0 defeats the NULLIF
protection that the adjacent CASE WHEN shows was intended. -/
theorem day_on_day_zero_previous_divides_by_zero :
    dodQueryRows [⟨100, 0⟩] = Except.error "Divide by zero error encountered." ∧
    dodPercentChange 0 100 = none ∧
    dodOrderKey 100 0 = Except.error "Divide by zero error encountered." :=
  ⟨rfl, rfl, rfl⟩

/-- C10: for a non-empty table and a method string matching none of zscore,
iqr, isolation_forest, detect_statistical_anomalies performs no detection and
raises no error: the anomalies list is empty, the statistics block is fully
populated from the data, and the method field echoes the unrecognized string
with no indication that it was unknown. -/
theorem unknown_method_no_detection (p : Predictor) (d m : String) (rows : List SRow)
    (hrows : rows ≠ []) (hm : m ∉ (["zscore", "iqr", "isolation_forest"] : List String)) :
    detect_statistical_anomalies p d m rows =
      ⟨[], some (statSummaryOf rows 0), m, some (resolveStatDimension d)⟩ := by
  have h1 : rows.isEmpty = false := by
    simpa [List.isEmpty_iff] using hrows
  have hz : ¬(m = "zscore") := fun h => hm (by simp [h])
  have hi : ¬(m = "iqr") := fun h => hm (by simp [h])
  have hf : ¬(m = "isolation_forest") := fun h => hm (by simp [h])
  simp [detect_statistical_anomalies, h1, hz, hi, hf]

theorem unknown_method_no_detection_witness :
    (([⟨"A", 5, 7⟩] : List SRow) ≠ []) ∧
    ("bogus" ∉ (["zscore", "iqr", "isolation_forest"] : List String)) ∧
    detect_statistical_anomalies (fun _ _ _ => []) "ProductKey" "bogus" [⟨"A", 5, 7⟩] =
      ⟨[], some (statSummaryOf [⟨"A", 5, 7⟩] 0), "bogus",
        some (resolveStatDimension "ProductKey")⟩ :=
  ⟨by decide, by decide,
    unknown_method_no_detection (fun _ _ _ => []) "ProductKey" "bogus" [⟨"A", 5, 7⟩]
      (by decide) (by decide)⟩

/-- C7: the isolation-forest branch skips detection below 10 groups and
produces an empty, well-formed result instead of failing; with at least 10
groups the ensemble is consulted exactly at the fixed contamination 0.1 and
fixed random seed 42, so any two runs whose ensembles agree at that fixed
configuration — in particular repeated runs of the deterministic seeded
algorithm — produce identical findings. -/
theorem isolation_forest_skip_and_determinism (p q : Predictor) (d dim : String)
    (rows : List SRow) :
    (rows.length < 10 → isoBranch p dim rows = []) ∧
    (rows ≠ [] → rows.length < 10 →
      detect_statistical_anomalies p d "isolation_forest" rows =
        ⟨[], some (statSummaryOf rows 0), "isolation_forest",
          some (resolveStatDimension d)⟩) ∧
    (p isoContamination isoRandomState (rows.map SRow.metricValue) =
        q isoContamination isoRandomState (rows.map SRow.metricValue) →
      isoBranch p dim rows = isoBranch q dim rows) ∧
    isoContamination = 1 / 10 ∧ isoRandomState = 42 := by
  refine ⟨fun hlt => ?_, fun hne hlt => ?_, fun hpq => ?_, rfl, rfl⟩
  · unfold isoBranch
    rw [if_neg (by omega)]
  · have h1 : rows.isEmpty = false := by simpa [List.isEmpty_iff] using hne
    have h2 : isoBranch p (resolveStatDimension d) rows = [] := by
      unfold isoBranch
      rw [if_neg (by omega)]
    simp [detect_statistical_anomalies, h1, h2]
  · unfold isoBranch
    simp only [hpq]

theorem isolation_forest_skip_witness :
    (([⟨"A", 1, 5⟩, ⟨"B", 2, 5⟩, ⟨"C", 3, 5⟩] : List SRow).length < 10) ∧
    isoBranch (fun _ _ _ => []) "ProductKey" [⟨"A", 1, 5⟩, ⟨"B", 2, 5⟩, ⟨"C", 3, 5⟩] = [] :=
  ⟨by decide,
    (isolation_forest_skip_and_determinism (fun _ _ _ => []) (fun _ _ _ => [])
      "ProductKey" "ProductKey" [⟨"A", 1, 5⟩, ⟨"B", 2, 5⟩, ⟨"C", 3, 5⟩]).1 (by decide)⟩

theorem mcLookup_cons {V : Type} (e : String × V × Option ℚ)
    (m : List (String × V × Option ℚ)) (k : String) :
    mcLookup (e :: m) k = if e.1 = k then some e.2 else mcLookup m k := by
  rcases e with ⟨k', vv⟩
  rfl

theorem mcErase_cons {V : Type} (e : String × V × Option ℚ)
    (m : List (String × V × Option ℚ)) (k : String) :
    mcErase (e :: m) k = if e.1 = k then mcErase m k else e :: mcErase m k := by
  by_cases h : e.1 = k <;> simp [mcErase, List.filter_cons, h]

theorem mcCleanup_cons {V : Type} (now : ℚ) (e : String × V × Option ℚ)
    (m : List (String × V × Option ℚ)) :
    mcCleanup now (e :: m) =
      if aliveAt now e.2.2 then e :: mcCleanup now m else mcCleanup now m := by
  cases h : aliveAt now e.2.2 <;> simp [mcCleanup, List.filter_cons, h]

theorem mcLookup_erase_self {V : Type} (m : List (String × V × Option ℚ)) (k : String) :
    mcLookup (mcErase m k) k = none := by
  induction m with
  | nil => rfl
  | cons e rest ih =>
    rw [mcErase_cons]
    by_cases h : e.1 = k
    · rw [if_pos h]
      exact ih
    · rw [if_neg h, mcLookup_cons, if_neg h]
      exact ih

theorem mcLookup_insert_self {V : Type} (m : List (String × V × Option ℚ)) (k : String)
    (vv : V × Option ℚ) : mcLookup (mcInsert m k vv) k = some vv := by
  rw [mcInsert, mcLookup_cons]
  simp

theorem mcLookup_cleanup_of_alive {V : Type} (now : ℚ) (m : List (String × V × Option ℚ))
    (k : String) (v : V) (e : Option ℚ) (h : mcLookup m k = some (v, e))
    (ha : aliveAt now e = true) :
    mcLookup (mcCleanup now m) k = some (v, e) := by
  induction m with
  | nil => simp [mcLookup] at h
  | cons hd rest ih =>
    rw [mcLookup_cons] at h
    rw [mcCleanup_cons]
    by_cases hk : hd.1 = k
    · rw [if_pos hk] at h
      have hv : hd.2 = (v, e) := Option.some.inj h
      have halive : aliveAt now hd.2.2 = true := by
        rw [hv]
        exact ha
      rw [if_pos halive, mcLookup_cons, if_pos hk, hv]
    · rw [if_neg hk] at h
      have := ih h
      by_cases halive : aliveAt now hd.2.2 = true
      · rw [if_pos halive, mcLookup_cons, if_neg hk]
        exact this
      · rw [if_neg halive]
        exact this

theorem mcLookup_after_setStore {V : Type} (m : List (String × V × Option ℚ)) (now : ℚ)
    (k : String) (v : V) (ttl : Option ℚ) (ha : aliveAt now (setExpiry now ttl) = true) :
    mcLookup (cacheSetStore m now k v ttl) k = some (v, setExpiry now ttl) := by
  rw [cacheSetStore]
  split
  · exact mcLookup_cleanup_of_alive now _ k v (setExpiry now ttl)
      (mcLookup_insert_self _ _ _) ha
  · exact mcLookup_insert_self _ _ _

/-- C8: on the in-process cache, (i) a get performed at or after the absolute
expiry now + ttl of a set entry is a miss and evicts the entry from the
backing store; (ii) an entry set with ttl none is returned unchanged by a get
at any later (or any) time; (iii) every get increments exactly one of the hit
and miss counters. -/
theorem cache_expiry_semantics {V : Type} (s : CacheState V) (now now' : ℚ) (k : String)
    (v : V) (ttl : ℚ) :
    (0 < ttl → now + ttl ≤ now' →
      (cacheGet (cacheSet s now k v (some ttl)) now' k).1 = none ∧
      mcLookup ((cacheGet (cacheSet s now k v (some ttl)) now' k).2).memoryCache k = none) ∧
    ((cacheGet (cacheSet s now k v none) now' k).1 = some v) ∧
    (((cacheGet s now' k).2.hits = s.hits + 1 ∧ (cacheGet s now' k).2.misses = s.misses) ∨
      ((cacheGet s now' k).2.hits = s.hits ∧ (cacheGet s now' k).2.misses = s.misses + 1)) := by
  refine ⟨fun ht hnow => ?_, ?_, ?_⟩
  · have hexp : setExpiry now (some ttl) = some (now + ttl) := by
      simp [setExpiry, ne_of_gt ht]
    have hl : mcLookup (cacheSet s now k v (some ttl)).memoryCache k =
        some (v, some (now + ttl)) := by
      have := mcLookup_after_setStore s.memoryCache now k v (some ttl)
        (by simp [hexp, aliveAt]; linarith)
      rw [hexp] at this
      exact this
    have hlt : ¬(now' < now + ttl) := not_lt.mpr hnow
    constructor
    · simp [cacheGet, hl, hlt]
    · simp [cacheGet, hl, hlt, mcLookup_erase_self]
  · have hl : mcLookup (cacheSet s now k v none).memoryCache k = some (v, none) :=
      mcLookup_after_setStore s.memoryCache now k v none (by simp [setExpiry, aliveAt])
    simp [cacheGet, hl]
  · match hl : mcLookup s.memoryCache k with
    | none => right; simp [cacheGet, hl]
    | some (v', none) => left; simp [cacheGet, hl]
    | some (v', some t) =>
      by_cases hlt : now' < t
      · left; simp [cacheGet, hl, hlt]
      · right; simp [cacheGet, hl, hlt]

theorem cache_expiry_semantics_witness :
    ((0 : ℚ) < 1) ∧ ((0 : ℚ) + 1 ≤ 5) ∧
    ((cacheGet (cacheSet (⟨[], 0, 0, 0⟩ : CacheState ℕ) 0 "k" 7 (some 1)) 5 "k").1 = none ∧
      mcLookup ((cacheGet (cacheSet (⟨[], 0, 0, 0⟩ : CacheState ℕ) 0 "k" 7 (some 1)) 5
          "k").2).memoryCache "k" = none) :=
  ⟨by norm_num, by norm_num,
    (cache_expiry_semantics (⟨[], 0, 0, 0⟩ : CacheState ℕ) 0 5 "k" 7 1).1
      (by norm_num) (by norm_num)⟩

theorem sumQ_nonneg (l : List ℚ) (h : ∀ x ∈ l, 0 ≤ x) : 0 ≤ sumQ l := by
  induction l with
  | nil => exact le_refl 0
  | cons x xs ih =>
    have hx : 0 ≤ x := h x (List.mem_cons_self x xs)
    have hxs : 0 ≤ sumQ xs := ih (fun y hy => h y (List.mem_cons_of_mem x hy))
    show 0 ≤ x + sumQ xs
    linarith

theorem sampleVarQ_nonneg (l : List ℚ) (v : ℚ) (h : sampleVarQ l = some v) : 0 ≤ v := by
  unfold sampleVarQ at h
  split at h
  case isTrue hn =>
    have hv : sumQ (l.map (fun x => (x - meanQ l) ^ 2)) / ((l.length : ℚ) - 1) = v :=
      Option.some.inj h
    rw [← hv]
    apply div_nonneg
    · apply sumQ_nonneg
      intro x hx
      obtain ⟨y, _, rfl⟩ := List.mem_map.mp hx
      positivity
    · have h2 : (2 : ℚ) ≤ (l.length : ℚ) := by exact_mod_cast hn
      linarith
  case isFalse => cases h

theorem abs_gt_mul_sqrt_iff (x varq t : ℚ) (hv : 0 ≤ varq) (ht : 0 ≤ t) :
    (t : ℝ) * Real.sqrt (varq : ℝ) < |(x : ℝ)| ↔ t ^ 2 * varq < x ^ 2 := by
  have h1 : (t : ℝ) * Real.sqrt (varq : ℝ) = Real.sqrt ((t : ℝ) ^ 2 * (varq : ℝ)) := by
    rw [Real.sqrt_mul (by positivity) _, Real.sqrt_sq (by exact_mod_cast ht)]
  have h2 : |(x : ℝ)| = Real.sqrt ((x : ℝ) ^ 2) := (Real.sqrt_sq_eq_abs _).symm
  rw [h1, h2, Real.sqrt_lt_sqrt_iff (by positivity)]
  constructor
  · intro h
    exact_mod_cast h
  · intro h
    exact_mod_cast h

theorem two_sqrt_lt_iff (y varq : ℚ) (hv : 0 ≤ varq) :
    2 * Real.sqrt (varq : ℝ) < (y : ℝ) ↔ (0 < y ∧ 4 * varq < y ^ 2) := by
  have h4 : Real.sqrt ((4 : ℝ) * (varq : ℝ)) = 2 * Real.sqrt (varq : ℝ) := by
    rw [show (4 : ℝ) = 2 ^ 2 by norm_num, Real.sqrt_mul (by positivity),
      Real.sqrt_sq (by norm_num)]
  constructor
  · intro h
    have hy : (0 : ℝ) < (y : ℝ) := lt_of_le_of_lt (by positivity) h
    refine ⟨by exact_mod_cast hy, ?_⟩
    have := (Real.sqrt_lt' hy).1 (by rw [h4]; exact h)
    exact_mod_cast this
  · rintro ⟨hy, hlt⟩
    have hy' : (0 : ℝ) < (y : ℝ) := by exact_mod_cast hy
    have hlt' : (4 : ℝ) * (varq : ℝ) < (y : ℝ) ^ 2 := by exact_mod_cast hlt
    rw [← h4]
    exact (Real.sqrt_lt' hy').2 hlt'

theorem zscoreFlag_iff (varq mean v t : ℚ) (hv : 0 ≤ varq) (ht : 0 ≤ t) :
    zscoreFlag (some varq) mean v t = true ↔
      (t : ℝ) * Real.sqrt (varq : ℝ) < |(v : ℝ) - (mean : ℝ)| := by
  unfold zscoreFlag
  rw [decide_eq_true_eq]
  have habs : |(v : ℝ) - (mean : ℝ)| = |((v - mean : ℚ) : ℝ)| := by push_cast; ring_nf
  rw [habs, abs_gt_mul_sqrt_iff (v - mean) varq t hv ht]

theorem zscoreSeverity_iff (varq mean v : ℚ) (hv : 0 ≤ varq) :
    (zscoreSeverity (some varq) mean v = "high" ↔
      (4 : ℝ) * Real.sqrt (varq : ℝ) < |(v : ℝ) - (mean : ℝ)|) := by
  have habs : |(v : ℝ) - (mean : ℝ)| = |((v - mean : ℚ) : ℝ)| := by push_cast; ring_nf
  have hb := abs_gt_mul_sqrt_iff (v - mean) varq 4 hv (by norm_num)
  have hcast : ((4 : ℚ) : ℝ) = (4 : ℝ) := by norm_num
  rw [habs, ← hcast, hb]
  show (if (v - mean) ^ 2 > 4 ^ 2 * varq then "high" else "medium") = "high" ↔
    4 ^ 2 * varq < (v - mean) ^ 2
  split_ifs with h
  · exact iff_of_true rfl h
  · exact iff_of_false (by decide) h

theorem mem_zscoreBranch_iff (dim : String) (rows : List SRow) (r : SRow) (hr : r ∈ rows) :
    (mkZscoreRec dim (meanQ (rows.map SRow.metricValue))
        (sampleVarQ (rows.map SRow.metricValue)) r ∈ zscoreBranch dim rows ↔
      zscoreFlag (sampleVarQ (rows.map SRow.metricValue))
        (meanQ (rows.map SRow.metricValue)) r.metricValue zscoreThreshold = true) := by
  unfold zscoreBranch
  simp only [List.mem_map, List.mem_filter]
  constructor
  · rintro ⟨r', ⟨hr', hflag⟩, heq⟩
    have hmv : r'.metricValue = r.metricValue := by
      simp only [mkZscoreRec, StatAnomaly.zscoreRec.injEq] at heq
      exact heq.2.2.1
    rw [← hmv]
    exact hflag
  · intro hflag
    exact ⟨r, ⟨hr, hflag⟩, rfl⟩

/-- C3 (amended): over any table with a defined (and necessarily nonnegative)
sample variance, the zscore branch flags exactly the groups whose metric sum
differs from the cross-group mean by more than 3 sample standard deviations,
with severity high exactly beyond 4 standard deviations.  (The claim's
concrete scenario is corrected separately: with only five groups the maximum
attainable zscore is below 3, so the table A:10, B:12, C:11, D:9, E:1000
produces no finding at all.) -/
theorem zscore_flags_and_severity (dim : String) (rows : List SRow) (varq : ℚ)
    (hvar : sampleVarQ (rows.map SRow.metricValue) = some varq) :
    ∀ r ∈ rows,
      (mkZscoreRec dim (meanQ (rows.map SRow.metricValue)) (some varq) r ∈
          zscoreBranch dim rows ↔
        3 * Real.sqrt (varq : ℝ) <
          |(r.metricValue : ℝ) - (meanQ (rows.map SRow.metricValue) : ℝ)|) ∧
      ((mkZscoreRec dim (meanQ (rows.map SRow.metricValue)) (some varq) r).severity =
          "high" ↔
        4 * Real.sqrt (varq : ℝ) <
          |(r.metricValue : ℝ) - (meanQ (rows.map SRow.metricValue) : ℝ)|) := by
  intro r hr
  have hv : 0 ≤ varq := sampleVarQ_nonneg _ _ hvar
  constructor
  · have hmem := mem_zscoreBranch_iff dim rows r hr
    rw [hvar] at hmem
    rw [hmem, zscoreFlag_iff varq _ _ zscoreThreshold hv (by decide)]
    norm_num [zscoreThreshold]
  · have hsev : (mkZscoreRec dim (meanQ (rows.map SRow.metricValue)) (some varq) r).severity =
        zscoreSeverity (some varq) (meanQ (rows.map SRow.metricValue)) r.metricValue := rfl
    rw [hsev, zscoreSeverity_iff varq _ _ hv]

theorem zscore_flags_witness :
    sampleVarQ (([⟨"A", 0, 5⟩, ⟨"B", 2, 5⟩] : List SRow).map SRow.metricValue) = some 2 ∧
    ((⟨"A", 0, 5⟩ : SRow) ∈ ([⟨"A", 0, 5⟩, ⟨"B", 2, 5⟩] : List SRow)) ∧
    ((mkZscoreRec "ProductKey" (meanQ (([⟨"A", 0, 5⟩, ⟨"B", 2, 5⟩] : List SRow).map
          SRow.metricValue)) (some 2) ⟨"A", 0, 5⟩ ∈
        zscoreBranch "ProductKey" [⟨"A", 0, 5⟩, ⟨"B", 2, 5⟩] ↔
      3 * Real.sqrt ((2 : ℚ) : ℝ) <
        |((0 : ℚ) : ℝ) - (meanQ (([⟨"A", 0, 5⟩, ⟨"B", 2, 5⟩] : List SRow).map
          SRow.metricValue) : ℝ)|) ∧
    ((mkZscoreRec "ProductKey" (meanQ (([⟨"A", 0, 5⟩, ⟨"B", 2, 5⟩] : List SRow).map
          SRow.metricValue)) (some 2) ⟨"A", 0, 5⟩).severity = "high" ↔
      4 * Real.sqrt ((2 : ℚ) : ℝ) <
        |((0 : ℚ) : ℝ) - (meanQ (([⟨"A", 0, 5⟩, ⟨"B", 2, 5⟩] : List SRow).map
          SRow.metricValue) : ℝ)|)) :=
  ⟨by norm_num [sampleVarQ, meanQ, sumQ], by decide,
    zscore_flags_and_severity "ProductKey" [⟨"A", 0, 5⟩, ⟨"B", 2, 5⟩] 2
      (by norm_num [sampleVarQ, meanQ, sumQ]) ⟨"A", 0, 5⟩ (by decide)⟩

/-- C3 counterexample: the claim's concrete scenario fails on the code: for
group sums A:10, B:12, C:11, D:9, E:1000 the zscore detector flags nothing —
E is not flagged, because five groups cannot push any zscore above 3 (the
sample-std zscore of E is about 1.79). -/
theorem zscore_concrete_scenario_flags_nothing :
    (detect_statistical_anomalies (fun _ _ _ => []) "ProductKey" "zscore"
      [⟨"A", 10, 5⟩, ⟨"B", 12, 5⟩, ⟨"C", 11, 5⟩, ⟨"D", 9, 5⟩,
        ⟨"E", 1000, 5⟩]).anomalies = [] := by
  norm_num [detect_statistical_anomalies, zscoreBranch, zscoreFlag, zscoreThreshold,
    sampleVarQ, meanQ, sumQ, List.filter]

theorem floor_toNat_cast_le (pos : ℚ) (h0 : 0 ≤ pos) : ((⌊pos⌋.toNat : ℕ) : ℚ) ≤ pos := by
  have h1 : (0 : ℤ) ≤ ⌊pos⌋ := Int.floor_nonneg.mpr h0
  have h2 : ((⌊pos⌋.toNat : ℤ)) = ⌊pos⌋ := Int.toNat_of_nonneg h1
  have h3 : ((⌊pos⌋ : ℤ) : ℚ) ≤ pos := Int.floor_le pos
  calc ((⌊pos⌋.toNat : ℕ) : ℚ) = ((⌊pos⌋.toNat : ℤ) : ℚ) := by push_cast; rfl
    _ = ((⌊pos⌋ : ℤ) : ℚ) := by rw [h2]
    _ ≤ pos := h3

theorem lt_floor_toNat_add_one (pos : ℚ) (h0 : 0 ≤ pos) :
    pos < ((⌊pos⌋.toNat : ℕ) : ℚ) + 1 := by
  have h1 : (0 : ℤ) ≤ ⌊pos⌋ := Int.floor_nonneg.mpr h0
  have h2 : ((⌊pos⌋.toNat : ℤ)) = ⌊pos⌋ := Int.toNat_of_nonneg h1
  have h3 : pos < ((⌊pos⌋ : ℤ) : ℚ) + 1 := Int.lt_floor_add_one pos
  have h4 : ((⌊pos⌋.toNat : ℕ) : ℚ) = ((⌊pos⌋ : ℤ) : ℚ) := by
    rw [← h2]; push_cast; rfl
  rw [h4]
  exact h3

theorem floor_toNat_lt_length (pos : ℚ) (n : ℕ) (h0 : 0 ≤ pos) (hub : pos ≤ (n : ℚ) - 1)
    (hn : 1 ≤ n) : ⌊pos⌋.toNat < n := by
  have h2 : ((⌊pos⌋ : ℤ) : ℚ) ≤ (n : ℚ) - 1 := le_trans (Int.floor_le pos) hub
  have h3 : ⌊pos⌋ ≤ (n : ℤ) - 1 := by exact_mod_cast h2
  omega

theorem sorted_getD_mono (s : List ℚ) (hs : List.Sorted (· ≤ ·) s) (k l : ℕ) (hkl : k ≤ l)
    (hl : l < s.length) : s.getD k 0 ≤ s.getD l 0 := by
  have hk : k < s.length := Nat.lt_of_le_of_lt hkl hl
  rw [List.getD_eq_get s 0 hk, List.getD_eq_get s 0 hl]
  exact hs.rel_get_of_le (Fin.mk_le_mk.mpr hkl)

theorem interp_cell_nonneg (s : List ℚ) (hs : List.Sorted (· ≤ ·) s) (i : ℕ)
    (hi : i < s.length) : 0 ≤ s.getD (i + 1) (s.getD i 0) - s.getD i 0 := by
  by_cases hi1 : i + 1 < s.length
  · rw [List.getD_eq_get s (s.getD i 0) hi1]
    have := sorted_getD_mono s hs i (i + 1) (Nat.le_succ i) hi1
    rw [List.getD_eq_get s 0 hi1] at this
    linarith
  · rw [List.getD_eq_default s (s.getD i 0) (Nat.le_of_not_lt hi1)]
    simp

theorem interpAt_ge_floor (s : List ℚ) (hs : List.Sorted (· ≤ ·) s) (pos : ℚ)
    (h0 : 0 ≤ pos) (hub : pos ≤ (s.length : ℚ) - 1) (hn : 1 ≤ s.length) :
    s.getD (⌊pos⌋.toNat) 0 ≤ interpAt s pos := by
  have hi : ⌊pos⌋.toNat < s.length := floor_toNat_lt_length pos s.length h0 hub hn
  have hfrac : 0 ≤ pos - ((⌊pos⌋.toNat : ℕ) : ℚ) :=
    sub_nonneg.mpr (floor_toNat_cast_le pos h0)
  have hd := interp_cell_nonneg s hs ⌊pos⌋.toNat hi
  simp only [interpAt]
  nlinarith [mul_nonneg hfrac hd]

theorem interpAt_le_next (s : List ℚ) (hs : List.Sorted (· ≤ ·) s) (pos : ℚ)
    (h0 : 0 ≤ pos) (hi1 : ⌊pos⌋.toNat + 1 < s.length) :
    interpAt s pos ≤ s.getD (⌊pos⌋.toNat + 1) 0 := by
  have hfrac1 : pos - ((⌊pos⌋.toNat : ℕ) : ℚ) < 1 := by
    have := lt_floor_toNat_add_one pos h0
    linarith
  have hfrac0 : 0 ≤ pos - ((⌊pos⌋.toNat : ℕ) : ℚ) :=
    sub_nonneg.mpr (floor_toNat_cast_le pos h0)
  have hi : ⌊pos⌋.toNat < s.length := by omega
  have heq : s.getD (⌊pos⌋.toNat + 1) (s.getD (⌊pos⌋.toNat) 0) =
      s.getD (⌊pos⌋.toNat + 1) 0 := by
    rw [List.getD_eq_get s _ hi1, List.getD_eq_get s 0 hi1]
  have hd : 0 ≤ s.getD (⌊pos⌋.toNat + 1) 0 - s.getD (⌊pos⌋.toNat) 0 := by
    have := sorted_getD_mono s hs (⌊pos⌋.toNat) (⌊pos⌋.toNat + 1) (Nat.le_succ _) hi1
    linarith
  simp only [interpAt, heq]
  nlinarith [mul_le_mul_of_nonneg_right (le_of_lt hfrac1) hd]

theorem interpAt_mono (s : List ℚ) (hs : List.Sorted (· ≤ ·) s) (a b : ℚ) (h0 : 0 ≤ a)
    (hab : a ≤ b) (hb : b ≤ (s.length : ℚ) - 1) (hn : 1 ≤ s.length) :
    interpAt s a ≤ interpAt s b := by
  have h0b : 0 ≤ b := le_trans h0 hab
  have hjlt : ⌊b⌋.toNat < s.length := floor_toNat_lt_length b s.length h0b hb hn
  have hflo : ⌊a⌋ ≤ ⌊b⌋ := Int.floor_mono hab
  have hij : ⌊a⌋.toNat ≤ ⌊b⌋.toNat := by omega
  by_cases hsame : ⌊a⌋.toNat = ⌊b⌋.toNat
  · have hd := interp_cell_nonneg s hs (⌊b⌋.toNat) hjlt
    have hfa : ((⌊b⌋.toNat : ℕ) : ℚ) ≤ a := by
      rw [← hsame]
      exact floor_toNat_cast_le a h0
    simp only [interpAt, hsame]
    nlinarith [mul_le_mul_of_nonneg_right
      (show a - ((⌊b⌋.toNat : ℕ) : ℚ) ≤ b - ((⌊b⌋.toNat : ℕ) : ℚ) by linarith) hd]
  · have hlt : ⌊a⌋.toNat < ⌊b⌋.toNat := lt_of_le_of_ne hij hsame
    have hi1 : ⌊a⌋.toNat + 1 < s.length := by omega
    calc interpAt s a ≤ s.getD (⌊a⌋.toNat + 1) 0 := interpAt_le_next s hs a h0 hi1
      _ ≤ s.getD (⌊b⌋.toNat) 0 := sorted_getD_mono s hs _ _ (by omega) hjlt
      _ ≤ interpAt s b := interpAt_ge_floor s hs b h0b hb hn

theorem quantileQ_mono (l : List ℚ) (hne : l ≠ []) (p q : ℚ) (h0 : 0 ≤ p) (hpq : p ≤ q)
    (hq1 : q ≤ 1) : quantileQ l p ≤ quantileQ l q := by
  have hsort : List.Sorted (· ≤ ·) (sortQ l) := List.sorted_insertionSort _ l
  have hlen : (sortQ l).length = l.length := List.length_insertionSort _ l
  have hpos : 1 ≤ l.length := List.length_pos.mpr hne
  have hn : 1 ≤ (sortQ l).length := by rw [hlen]; exact hpos
  have hn1 : (0 : ℚ) ≤ (l.length : ℚ) - 1 := by
    have : (1 : ℚ) ≤ (l.length : ℚ) := by exact_mod_cast hpos
    linarith
  unfold quantileQ
  apply interpAt_mono (sortQ l) hsort _ _ (mul_nonneg h0 hn1)
    (mul_le_mul_of_nonneg_right hpq hn1) ?_ hn
  rw [hlen]
  nlinarith

theorem mem_iqrBranch_iff (dim : String) (rows : List SRow) (r : SRow) (hr : r ∈ rows) :
    (mkIqrRec dim (quantileQ (rows.map SRow.metricValue) (1 / 4))
        (quantileQ (rows.map SRow.metricValue) (3 / 4))
        (quantileQ (rows.map SRow.metricValue) (3 / 4) -
          quantileQ (rows.map SRow.metricValue) (1 / 4)) r ∈ iqrBranch dim rows ↔
      iqrOutlier (iqrLower (rows.map SRow.metricValue))
        (iqrUpper (rows.map SRow.metricValue)) r.metricValue = true) := by
  unfold iqrBranch
  simp only [List.mem_map, List.mem_filter]
  constructor
  · rintro ⟨r', ⟨hr', hflag⟩, heq⟩
    have hmv : r'.metricValue = r.metricValue := by
      simp only [mkIqrRec, StatAnomaly.iqrRec.injEq] at heq
      exact heq.2.2.1
    rw [← hmv]
    exact hflag
  · intro hflag
    exact ⟨r, ⟨hr, hflag⟩, rfl⟩

/-- C4: for every non-empty table, the IQR branch computes bounds satisfying
lower ≤ Q1 ≤ Q3 ≤ upper, emits a record exactly for the rows whose value is
strictly outside the closed interval of the bounds — so a value at upper + ε
is flagged and one at upper − ε is not (as long as it does not drop below the
lower bound) — and marks a record high exactly when the value exceeds the
bound by more than another full IQR. -/
theorem iqr_bounds_flags_severity (dim : String) (rows : List SRow) (hne : rows ≠ []) :
    (iqrLower (rows.map SRow.metricValue) ≤ quantileQ (rows.map SRow.metricValue) (1 / 4) ∧
      quantileQ (rows.map SRow.metricValue) (1 / 4) ≤
        quantileQ (rows.map SRow.metricValue) (3 / 4) ∧
      quantileQ (rows.map SRow.metricValue) (3 / 4) ≤
        iqrUpper (rows.map SRow.metricValue)) ∧
    (∀ r ∈ rows,
      (mkIqrRec dim (quantileQ (rows.map SRow.metricValue) (1 / 4))
          (quantileQ (rows.map SRow.metricValue) (3 / 4))
          (quantileQ (rows.map SRow.metricValue) (3 / 4) -
            quantileQ (rows.map SRow.metricValue) (1 / 4)) r ∈ iqrBranch dim rows ↔
        (r.metricValue < iqrLower (rows.map SRow.metricValue) ∨
          r.metricValue > iqrUpper (rows.map SRow.metricValue))) ∧
      ((mkIqrRec dim (quantileQ (rows.map SRow.metricValue) (1 / 4))
          (quantileQ (rows.map SRow.metricValue) (3 / 4))
          (quantileQ (rows.map SRow.metricValue) (3 / 4) -
            quantileQ (rows.map SRow.metricValue) (1 / 4)) r).severity = "high" ↔
        (r.metricValue < iqrLower (rows.map SRow.metricValue) -
            (quantileQ (rows.map SRow.metricValue) (3 / 4) -
              quantileQ (rows.map SRow.metricValue) (1 / 4)) ∨
          r.metricValue > iqrUpper (rows.map SRow.metricValue) +
            (quantileQ (rows.map SRow.metricValue) (3 / 4) -
              quantileQ (rows.map SRow.metricValue) (1 / 4))))) ∧
    (∀ ε : ℚ, 0 < ε →
      iqrOutlier (iqrLower (rows.map SRow.metricValue))
        (iqrUpper (rows.map SRow.metricValue))
        (iqrUpper (rows.map SRow.metricValue) + ε) = true) ∧
    (∀ ε : ℚ, 0 < ε → ε ≤ iqrUpper (rows.map SRow.metricValue) -
        iqrLower (rows.map SRow.metricValue) →
      iqrOutlier (iqrLower (rows.map SRow.metricValue))
        (iqrUpper (rows.map SRow.metricValue))
        (iqrUpper (rows.map SRow.metricValue) - ε) = false) := by
  have hmapne : rows.map SRow.metricValue ≠ [] := by
    simpa using hne
  have hq13 : quantileQ (rows.map SRow.metricValue) (1 / 4) ≤
      quantileQ (rows.map SRow.metricValue) (3 / 4) :=
    quantileQ_mono _ hmapne _ _ (by norm_num) (by norm_num) (by norm_num)
  refine ⟨⟨?_, hq13, ?_⟩, fun r hr => ⟨?_, ?_⟩, fun ε hε => ?_, fun ε hε hεle => ?_⟩
  · unfold iqrLower iqrMultiplier
    nlinarith
  · unfold iqrUpper iqrMultiplier
    nlinarith
  · rw [mem_iqrBranch_iff dim rows r hr]
    unfold iqrOutlier
    rw [decide_eq_true_eq]
  · show (if _ then "high" else "medium") = "high" ↔ _
    split_ifs with h
    · refine iff_of_true rfl ?_
      unfold iqrLower iqrUpper iqrMultiplier
      unfold iqrMultiplier at h
      rcases h with h | h
      · left; linarith
      · right; linarith
    · refine iff_of_false (by decide) ?_
      unfold iqrMultiplier at h
      push_neg at h
      unfold iqrLower iqrUpper iqrMultiplier
      push_neg
      constructor
      · linarith [h.1]
      · linarith [h.2]
  · unfold iqrOutlier
    rw [decide_eq_true_eq]
    right
    linarith
  · unfold iqrOutlier
    simp only [decide_eq_false_iff_not]
    push_neg
    constructor
    · linarith
    · linarith

theorem iqr_bounds_flags_severity_witness :
    (([⟨"A", 1, 5⟩, ⟨"B", 2, 5⟩, ⟨"C", 3, 5⟩, ⟨"D", 4, 5⟩, ⟨"E", 100, 5⟩] : List SRow) ≠ []) ∧
    (iqrLower (([⟨"A", 1, 5⟩, ⟨"B", 2, 5⟩, ⟨"C", 3, 5⟩, ⟨"D", 4, 5⟩,
          ⟨"E", 100, 5⟩] : List SRow).map SRow.metricValue) ≤
        quantileQ (([⟨"A", 1, 5⟩, ⟨"B", 2, 5⟩, ⟨"C", 3, 5⟩, ⟨"D", 4, 5⟩,
          ⟨"E", 100, 5⟩] : List SRow).map SRow.metricValue) (1 / 4) ∧
      quantileQ (([⟨"A", 1, 5⟩, ⟨"B", 2, 5⟩, ⟨"C", 3, 5⟩, ⟨"D", 4, 5⟩,
          ⟨"E", 100, 5⟩] : List SRow).map SRow.metricValue) (1 / 4) ≤
        quantileQ (([⟨"A", 1, 5⟩, ⟨"B", 2, 5⟩, ⟨"C", 3, 5⟩, ⟨"D", 4, 5⟩,
          ⟨"E", 100, 5⟩] : List SRow).map SRow.metricValue) (3 / 4) ∧
      quantileQ (([⟨"A", 1, 5⟩, ⟨"B", 2, 5⟩, ⟨"C", 3, 5⟩, ⟨"D", 4, 5⟩,
          ⟨"E", 100, 5⟩] : List SRow).map SRow.metricValue) (3 / 4) ≤
        iqrUpper (([⟨"A", 1, 5⟩, ⟨"B", 2, 5⟩, ⟨"C", 3, 5⟩, ⟨"D", 4, 5⟩,
          ⟨"E", 100, 5⟩] : List SRow).map SRow.metricValue)) :=
  ⟨by decide,
    (iqr_bounds_flags_severity "ProductKey"
      [⟨"A", 1, 5⟩, ⟨"B", 2, 5⟩, ⟨"C", 3, 5⟩, ⟨"D", 4, 5⟩, ⟨"E", 100, 5⟩] (by decide)).1⟩

theorem rollingVarSq_nonneg (vals : List ℚ) (w i : ℕ) (mv : ℚ)
    (h : rollingVarSq vals w i = some mv) : 0 ≤ mv := by
  unfold rollingVarSq at h
  cases hw : rollingWindow vals w i with
  | none => rw [hw] at h; cases h
  | some win => rw [hw] at h; exact sampleVarQ_nonneg win mv h

theorem gtUpperBound_iff (v c varq : ℚ) (hv : 0 ≤ varq) :
    gtUpperBound v c varq = true ↔
      (c : ℝ) + 2 * Real.sqrt (varq : ℝ) < (v : ℝ) := by
  unfold gtUpperBound
  rw [decide_eq_true_eq]
  have h := two_sqrt_lt_iff (v - c) varq hv
  constructor
  · rintro ⟨h1, h2⟩
    have := h.mpr ⟨h1, h2⟩
    push_cast at this
    linarith
  · intro hlt
    have h' : 2 * Real.sqrt ((varq : ℚ) : ℝ) < ((v - c : ℚ) : ℝ) := by
      push_cast
      linarith
    exact h.mp h'

theorem ltLowerBound_iff (v c varq : ℚ) (hv : 0 ≤ varq) :
    ltLowerBound v c varq = true ↔
      (v : ℝ) < (c : ℝ) - 2 * Real.sqrt (varq : ℝ) := by
  unfold ltLowerBound
  rw [decide_eq_true_eq]
  have h := two_sqrt_lt_iff (c - v) varq hv
  constructor
  · rintro ⟨h1, h2⟩
    have := h.mpr ⟨h1, h2⟩
    push_cast at this
    linarith
  · intro hlt
    have h' : 2 * Real.sqrt ((varq : ℚ) : ℝ) < ((c - v : ℚ) : ℝ) := by
      push_cast
      linarith
    exact h.mp h'

theorem tsFlag_iff_of_centerVar (vals : List ℚ) (i : ℕ) (c varq : ℚ)
    (h : tsCenterVar vals i = some (c, varq)) (hv : 0 ≤ varq) :
    (tsFlag vals i = true ↔
      ((c : ℝ) + 2 * Real.sqrt (varq : ℝ) < (vals.getD i 0 : ℝ) ∨
        (vals.getD i 0 : ℝ) < (c : ℝ) - 2 * Real.sqrt (varq : ℝ))) := by
  unfold tsFlag
  rw [h, Bool.or_eq_true, gtUpperBound_iff _ _ _ hv, ltLowerBound_iff _ _ _ hv]

theorem tsFlag_false_of_centerVar_none (vals : List ℚ) (i : ℕ)
    (h : tsCenterVar vals i = none) : tsFlag vals i = false := by
  unfold tsFlag
  rw [h]

theorem tsCenterVar_rolling (vals : List ℚ) (i : ℕ) (hw : 2 ≤ tsWindow vals) (ma mv : ℚ)
    (hma : rollingMean vals (tsWindow vals) i = some ma)
    (hmv : rollingVarSq vals (tsWindow vals) i = some mv) :
    tsCenterVar vals i = some (ma, mv) := by
  unfold tsCenterVar
  rw [if_pos hw, hma, hmv]

theorem tsCenterVar_rolling_none (vals : List ℚ) (i : ℕ) (hw : 2 ≤ tsWindow vals)
    (hma : rollingMean vals (tsWindow vals) i = none) : tsCenterVar vals i = none := by
  unfold tsCenterVar
  rw [if_pos hw, hma]

theorem tsCenterVar_fallback (vals : List ℚ) (i : ℕ) (hw : tsWindow vals < 2) (gv : ℚ)
    (hgv : sampleVarQ vals = some gv) : tsCenterVar vals i = some (meanQ vals, gv) := by
  unfold tsCenterVar
  rw [if_neg (not_le.mpr hw), hgv]

theorem tsCenterVar_fallback_none (vals : List ℚ) (i : ℕ) (hw : tsWindow vals < 2)
    (hgv : sampleVarQ vals = none) : tsCenterVar vals i = none := by
  unfold tsCenterVar
  rw [if_neg (not_le.mpr hw), hgv]

theorem tsCenterVar_var_nonneg (vals : List ℚ) (i : ℕ) (c varq : ℚ)
    (h : tsCenterVar vals i = some (c, varq)) : 0 ≤ varq := by
  simp only [tsCenterVar] at h
  by_cases hw : 2 ≤ tsWindow vals
  · rw [if_pos hw] at h
    cases hma : rollingMean vals (tsWindow vals) i with
    | none => rw [hma] at h; simp at h
    | some ma =>
      cases hmv : rollingVarSq vals (tsWindow vals) i with
      | none => rw [hma, hmv] at h; simp at h
      | some mv =>
        rw [hma, hmv] at h
        simp only [Option.some.injEq, Prod.mk.injEq] at h
        rw [← h.2]
        exact rollingVarSq_nonneg vals (tsWindow vals) i mv hmv
  · rw [if_neg hw] at h
    cases hg : sampleVarQ vals with
    | none => rw [hg] at h; simp at h
    | some gv =>
      rw [hg] at h
      simp only [Option.some.injEq, Prod.mk.injEq] at h
      rw [← h.2]
      exact sampleVarQ_nonneg _ _ hg

theorem tsSeverity_iff (vals : List ℚ) (v gv : ℚ) (hgv : sampleVarQ vals = some gv) :
    (tsSeverity vals v = "high" ↔
      3 * Real.sqrt (gv : ℝ) < |(v : ℝ) - (meanQ vals : ℝ)|) := by
  have hv : 0 ≤ gv := sampleVarQ_nonneg _ _ hgv
  have habs : |(v : ℝ) - (meanQ vals : ℝ)| = |((v - meanQ vals : ℚ) : ℝ)| := by
    push_cast; ring_nf
  have hb := abs_gt_mul_sqrt_iff (v - meanQ vals) gv 3 hv (by norm_num)
  have hcast : ((3 : ℚ) : ℝ) = (3 : ℝ) := by norm_num
  rw [habs, ← hcast, hb]
  unfold tsSeverity
  rw [hgv]
  show (if (v - meanQ vals) ^ 2 > 3 ^ 2 * gv then "high" else "medium") = "high" ↔
    3 ^ 2 * gv < (v - meanQ vals) ^ 2
  split_ifs with h
  · exact iff_of_true rfl h
  · exact iff_of_false (by decide) h

theorem tsType_iff (vals : List ℚ) (i : ℕ) (c varq : ℚ)
    (h : tsCenterVar vals i = some (c, varq)) (hflag : tsFlag vals i = true) :
    ((tsType vals i = "spike" ↔
        (c : ℝ) + 2 * Real.sqrt (varq : ℝ) < (vals.getD i 0 : ℝ)) ∧
      (tsType vals i = "drop" ↔
        (vals.getD i 0 : ℝ) < (c : ℝ) - 2 * Real.sqrt (varq : ℝ))) := by
  have hv : 0 ≤ varq := tsCenterVar_var_nonneg vals i c varq h
  have hsq : (0 : ℝ) ≤ Real.sqrt (varq : ℝ) := Real.sqrt_nonneg _
  unfold tsFlag at hflag
  rw [h, Bool.or_eq_true] at hflag
  unfold tsType
  rw [h]
  show ((if gtUpperBound (vals.getD i 0) c varq = true then "spike" else "drop") = "spike" ↔
      (c : ℝ) + 2 * Real.sqrt (varq : ℝ) < (vals.getD i 0 : ℝ)) ∧
    ((if gtUpperBound (vals.getD i 0) c varq = true then "spike" else "drop") = "drop" ↔
      (vals.getD i 0 : ℝ) < (c : ℝ) - 2 * Real.sqrt (varq : ℝ))
  by_cases hup : gtUpperBound (vals.getD i 0) c varq = true
  · have habove := (gtUpperBound_iff _ _ _ hv).mp hup
    rw [if_pos hup]
    refine ⟨iff_of_true rfl habove, iff_of_false (by decide) ?_⟩
    intro hbelow
    linarith
  · have hlow : ltLowerBound (vals.getD i 0) c varq = true := hflag.resolve_left hup
    have hbelow := (ltLowerBound_iff _ _ _ hv).mp hlow
    rw [if_neg hup]
    refine ⟨iff_of_false (by decide) ?_, iff_of_true rfl hbelow⟩
    intro habove
    linarith

/-- C5: the time-series detector windows as min(7, n // 3); with window size at
least 2 a row with defined centered rolling statistics is flagged exactly when
its value leaves rolling mean ± 2 · rolling std (rows with NaN rolling cells
are never flagged, as every NaN comparison is false); with window size below 2
it is flagged exactly when its value leaves global mean ± 2 · global std; a
flagged row is typed spike exactly when above the upper bound and drop exactly
when below the lower; severity is high exactly when the global z-score exceeds
3 in absolute value. -/
theorem time_series_window_bounds_types (granularity : String) (lookbackDays : ℕ)
    (rows : List TSRow) (vals : List ℚ) (i : ℕ)
    (hvals : vals = rows.map TSRow.metricValue) :
    (rows ≠ [] → (detect_time_series_anomalies granularity lookbackDays rows).anomalies =
      ((List.range rows.length).filter (tsFlag vals)).map (mkTSAnomaly rows vals)) ∧
    tsWindow vals = min 7 (rows.length / 3) ∧
    (2 ≤ tsWindow vals → ∀ ma mv, rollingMean vals (tsWindow vals) i = some ma →
      rollingVarSq vals (tsWindow vals) i = some mv →
      (tsFlag vals i = true ↔
        ((ma : ℝ) + 2 * Real.sqrt (mv : ℝ) < (vals.getD i 0 : ℝ) ∨
          (vals.getD i 0 : ℝ) < (ma : ℝ) - 2 * Real.sqrt (mv : ℝ)))) ∧
    (2 ≤ tsWindow vals → rollingMean vals (tsWindow vals) i = none →
      tsFlag vals i = false) ∧
    (tsWindow vals < 2 → ∀ gv, sampleVarQ vals = some gv →
      (tsFlag vals i = true ↔
        ((meanQ vals : ℝ) + 2 * Real.sqrt (gv : ℝ) < (vals.getD i 0 : ℝ) ∨
          (vals.getD i 0 : ℝ) < (meanQ vals : ℝ) - 2 * Real.sqrt (gv : ℝ)))) ∧
    (tsWindow vals < 2 → sampleVarQ vals = none → tsFlag vals i = false) ∧
    (∀ c varq, tsCenterVar vals i = some (c, varq) → tsFlag vals i = true →
      ((tsType vals i = "spike" ↔
          (c : ℝ) + 2 * Real.sqrt (varq : ℝ) < (vals.getD i 0 : ℝ)) ∧
        (tsType vals i = "drop" ↔
          (vals.getD i 0 : ℝ) < (c : ℝ) - 2 * Real.sqrt (varq : ℝ)))) ∧
    (∀ gv v, sampleVarQ vals = some gv →
      (tsSeverity vals v = "high" ↔
        3 * Real.sqrt (gv : ℝ) < |(v : ℝ) - (meanQ vals : ℝ)|)) := by
  subst hvals
  refine ⟨fun hne => ?_, ?_, fun hw ma mv hma hmv => ?_, fun hw hma => ?_,
    fun hw gv hgv => ?_, fun hw hgv => ?_, fun c varq hc hflag => ?_,
    fun gv v hgv => ?_⟩
  · have h1 : rows.isEmpty = false := by simpa [List.isEmpty_iff] using hne
    simp [detect_time_series_anomalies, h1]
  · unfold tsWindow
    rw [List.length_map]
  · have hc := tsCenterVar_rolling _ i hw ma mv hma hmv
    exact tsFlag_iff_of_centerVar _ i ma mv hc (rollingVarSq_nonneg _ _ _ mv hmv)
  · exact tsFlag_false_of_centerVar_none _ i (tsCenterVar_rolling_none _ i hw hma)
  · have hc := tsCenterVar_fallback _ i hw gv hgv
    exact tsFlag_iff_of_centerVar _ i _ gv hc (sampleVarQ_nonneg _ _ hgv)
  · exact tsFlag_false_of_centerVar_none _ i (tsCenterVar_fallback_none _ i hw hgv)
  · exact tsType_iff _ i c varq hc hflag
  · exact tsSeverity_iff _ v gv hgv

theorem time_series_window_witness :
    (([100, 100, 500] : List ℚ) =
      ([⟨"d1", 100, 1⟩, ⟨"d2", 100, 1⟩, ⟨"d3", 500, 1⟩] : List TSRow).map
        TSRow.metricValue) ∧
    tsWindow ([100, 100, 500] : List ℚ) < 2 ∧
    sampleVarQ ([100, 100, 500] : List ℚ) = some (160000 / 3) ∧
    (tsFlag ([100, 100, 500] : List ℚ) 2 = true ↔
      ((meanQ ([100, 100, 500] : List ℚ) : ℝ) +
          2 * Real.sqrt (((160000 / 3 : ℚ) : ℚ) : ℝ) <
          ((([100, 100, 500] : List ℚ).getD 2 0 : ℚ) : ℝ) ∨
        ((([100, 100, 500] : List ℚ).getD 2 0 : ℚ) : ℝ) <
          (meanQ ([100, 100, 500] : List ℚ) : ℝ) -
            2 * Real.sqrt (((160000 / 3 : ℚ) : ℚ) : ℝ))) :=
  ⟨by decide, by decide, by norm_num [sampleVarQ, meanQ, sumQ],
    (time_series_window_bounds_types "daily" 30
        [⟨"d1", 100, 1⟩, ⟨"d2", 100, 1⟩, ⟨"d3", 500, 1⟩] [100, 100, 500] 2
        (by decide)).2.2.2.2.1 (by decide) (160000 / 3)
      (by norm_num [sampleVarQ, meanQ, sumQ])⟩

/-- C9 counterexample: the six-period series of constant value 100 makes the
detector return a time_series_data dump whose first record's moving-average
cell is NaN (the centered window of size 2 covers the previous and current
index, so it does not fit at index 0), and that NaN leaves the function as-is
— no NaN-to-null conversion exists anywhere in the repository. -/
theorem nan_leaves_core_concrete :
    (((detect_time_series_anomalies "daily" 30
        [⟨"d1", 100, 1⟩, ⟨"d2", 100, 1⟩, ⟨"d3", 100, 1⟩, ⟨"d4", 100, 1⟩,
          ⟨"d5", 100, 1⟩, ⟨"d6", 100, 1⟩]).timeSeriesData.getD []).map TSRecord.ma) =
      [PCell.nan, PCell.num 100, PCell.num 100, PCell.num 100, PCell.num 100,
        PCell.num 100] := by
  norm_num [detect_time_series_anomalies, tsMA, tsWindow, tsFlag, tsCenterVar,
    rollingMean, rollingVarSq, rollingWindow, sampleVarQ, meanQ, sumQ, toPCell,
    gtUpperBound, ltLowerBound, List.range_succ]

/-- C9 (amended): detector outputs are not sanitized for non-finite floats:
for every series of six or more periods the time-series result's per-row dump
carries a NaN moving-average cell in its first record (the centered rolling
window never fits at index 0 once the window size reaches 2), emitted
unchanged. -/
theorem nan_in_time_series_records (granularity : String) (lb : ℕ) (rows : List TSRow)
    (h6 : 6 ≤ rows.length) :
    (((detect_time_series_anomalies granularity lb rows).timeSeriesData.getD []).getD
        0 ⟨"", 0, PCell.nan, false⟩).ma = PCell.nan := by
  have hne : rows ≠ [] := by
    intro h
    rw [h] at h6
    simp at h6
  have h1 : rows.isEmpty = false := by simpa [List.isEmpty_iff] using hne
  have hlenv : (rows.map TSRow.metricValue).length = rows.length := List.length_map _ _
  have hts : (detect_time_series_anomalies granularity lb rows).timeSeriesData =
      some ((List.range rows.length).map (fun i =>
        TSRecord.mk (rows.getD i ⟨"", 0, 0⟩).timePeriod
          ((rows.map TSRow.metricValue).getD i 0)
          (toPCell (tsMA (rows.map TSRow.metricValue) i))
          (tsFlag (rows.map TSRow.metricValue) i))) := by
    simp [detect_time_series_anomalies, h1]
  rw [hts, Option.getD_some,
    List.getD_eq_getElem _ _ (by rw [List.length_map, List.length_range]; omega)]
  simp only [List.getElem_map, List.getElem_range]
  show toPCell (tsMA (rows.map TSRow.metricValue) 0) = PCell.nan
  have hw2 : 2 ≤ tsWindow (rows.map TSRow.metricValue) := by
    unfold tsWindow
    rw [hlenv]
    exact Nat.le_min.mpr ⟨by norm_num, by omega⟩
  have hwinnone : rollingWindow (rows.map TSRow.metricValue)
      (tsWindow (rows.map TSRow.metricValue)) 0 = none := by
    unfold rollingWindow
    rw [if_neg]
    rintro ⟨h1, -⟩
    omega
  have hmanone : rollingMean (rows.map TSRow.metricValue)
      (tsWindow (rows.map TSRow.metricValue)) 0 = none := by
    unfold rollingMean
    rw [hwinnone]
    rfl
  unfold tsMA
  rw [if_pos hw2, hmanone]
  rfl

theorem nan_in_time_series_records_witness :
    6 ≤ ([⟨"d1", 100, 1⟩, ⟨"d2", 100, 1⟩, ⟨"d3", 100, 1⟩, ⟨"d4", 100, 1⟩,
        ⟨"d5", 100, 1⟩, ⟨"d6", 100, 1⟩] : List TSRow).length ∧
    (((detect_time_series_anomalies "monthly" 365
        [⟨"d1", 100, 1⟩, ⟨"d2", 100, 1⟩, ⟨"d3", 100, 1⟩, ⟨"d4", 100, 1⟩,
          ⟨"d5", 100, 1⟩, ⟨"d6", 100, 1⟩]).timeSeriesData.getD []).getD
        0 ⟨"", 0, PCell.nan, false⟩).ma = PCell.nan :=
  ⟨by decide,
    nan_in_time_series_records "monthly" 365
      [⟨"d1", 100, 1⟩, ⟨"d2", 100, 1⟩, ⟨"d3", 100, 1⟩, ⟨"d4", 100, 1⟩,
        ⟨"d5", 100, 1⟩, ⟨"d6", 100, 1⟩] (by decide)⟩

end SQLRag
